import Mathlib

/-!
A verification development for a robotic-lawnmower path-planning library.

The library consists of:
  * geometry.h — Point, Polygon, distance, and a ray-casting point-in-polygon
    test isInside with an exact boundary-inclusion short-circuit;
  * sweep_planner — a boustrophedon sweep-path generator over an axis-aligned
    rectangular region (the implementation file is not present in the sources;
    it is modelled here from the specification document);
  * robot.cpp — a simple actuator holding a position and an orientation in
    degrees, updated by moveTo.

Coordinates are modelled as rationals: the C++ code stores doubles but every
comparison it makes is exact, so the exact-arithmetic model captures the
intended semantics of each predicate.  The Euclidean distance is valued in the
reals (a square root), and the actuator orientation is valued in the reals
(an atan2-based bearing, modelled with the complex argument function).
-/

namespace RobotAlgo

/-- A 2D point with x and y coordinates, from geometry.h. -/
@[ext]
structure Point where
  x : ℚ
  y : ℚ
deriving DecidableEq

/-- A polygon defined by a sequence of vertices, from geometry.h. -/
@[ext]
structure Polygon where
  vertices : List Point
deriving DecidableEq

/-- Euclidean distance between two points, from geometry.h:
sqrt of pow (p2.x - p1.x) 2 plus pow (p2.y - p1.y) 2. -/
noncomputable def distance (p1 p2 : Point) : ℝ :=
  Real.sqrt (((p2.x - p1.x : ℚ) : ℝ) ^ 2 + ((p2.y - p1.y : ℚ) : ℝ) ^ 2)

/-- The (p1, p2) edge pairs traversed by the proper part of the isInside loop:
for a vertex list v0, v1, ..., v(n-1) these are
(v0, v1), (v1, v2), ..., (v(n-1), v0) — each vertex paired with its cyclic
successor, the closing edge included. -/
def polyEdges : List Point → List (Point × Point)
  | [] => []
  | v :: vs => (v :: vs).zip (vs ++ [v])

/-- All (p1, p2) pairs examined by the isInside loop in geometry.h.  The C++
loop runs i from 0 to num_vertices inclusive with p1 initialised to
vertices[0] and p2 = vertices[i mod num_vertices], so its first iteration
examines the degenerate pair (v0, v0) and the remaining iterations examine
the proper edges of polyEdges. -/
def loopEdges : List Point → List (Point × Point)
  | [] => []
  | v :: vs => (v, v) :: polyEdges (v :: vs)

/-- The horizontal-segment boundary test of isInside: the edge endpoints share
one y which equals the query y, and the query x lies within the x-range of the
segment. -/
abbrev onHorizSeg (x y : ℚ) (e : Point × Point) : Prop :=
  e.1.y = e.2.y ∧ e.1.y = y ∧ min e.1.x e.2.x ≤ x ∧ x ≤ max e.1.x e.2.x

/-- The vertical-segment boundary test of isInside: the edge endpoints share
one x which equals the query x, and the query y lies within the y-range of the
segment. -/
abbrev onVertSeg (x y : ℚ) (e : Point × Point) : Prop :=
  e.1.x = e.2.x ∧ e.1.x = x ∧ min e.1.y e.2.y ≤ y ∧ y ≤ max e.1.y e.2.y

/-- The ray-crossing test of isInside: one endpoint of the edge lies strictly
below the horizontal ray height y and the other lies at or above it. -/
abbrev crossesRay (y : ℚ) (e : Point × Point) : Prop :=
  (e.1.y < y ∧ y ≤ e.2.y) ∨ (e.2.y < y ∧ y ≤ e.1.y)

/-- The x-coordinate where the edge meets the horizontal line at height y, as
computed by isInside: (y - p1.y) * (p2.x - p1.x) / (p2.y - p1.y) + p1.x.
(Rational division by zero yields zero in this model; the crossing test
guarantees the denominator is nonzero whenever this value is used.) -/
def xIntersection (y : ℚ) (e : Point × Point) : ℚ :=
  (y - e.1.y) * (e.2.x - e.1.x) / (e.2.y - e.1.y) + e.1.x

/-- The body of the isInside loop of geometry.h, processing the remaining
(p1, p2) pairs with the running inside flag: a matched boundary test returns
true immediately; a crossing edge whose intersection lies strictly to the
right of x toggles the flag; the final flag is returned. -/
def isInsideLoop (x y : ℚ) : List (Point × Point) → Bool → Bool
  | [], inside => inside
  | e :: es, inside =>
    if onHorizSeg x y e then true
    else if onVertSeg x y e then true
    else if crossesRay y e then
      if x < xIntersection y e then isInsideLoop x y es (!inside)
      else isInsideLoop x y es inside
    else isInsideLoop x y es inside

/-- Ray-casting point-in-polygon test from geometry.h: false for a polygon
with fewer than 3 vertices, otherwise the loop over loopEdges starting with
the inside flag false. -/
def isInside (p : Point) (polygon : Polygon) : Bool :=
  if polygon.vertices.length < 3 then false
  else isInsideLoop p.x p.y (loopEdges polygon.vertices) false

/-- Modelled from the spec (the SweepPathPlanner implementation file is
absent from the sources; only sweep_planner.h, its tests and its callers are
present): the least x-coordinate over a vertex list, part of the bounding
extent of step 1 of generate. -/
def minXOf : List Point → ℚ
  | [] => 0
  | v :: vs => vs.foldl (fun m u => min m u.x) v.x

/-- Modelled from the spec: the greatest x-coordinate over a vertex list. -/
def maxXOf : List Point → ℚ
  | [] => 0
  | v :: vs => vs.foldl (fun m u => max m u.x) v.x

/-- Modelled from the spec: the least y-coordinate over a vertex list. -/
def minYOf : List Point → ℚ
  | [] => 0
  | v :: vs => vs.foldl (fun m u => min m u.y) v.y

/-- Modelled from the spec: the greatest y-coordinate over a vertex list. -/
def maxYOf : List Point → ℚ
  | [] => 0
  | v :: vs => vs.foldl (fun m u => max m u.y) v.y

/-- Modelled from the spec: the two waypoints of one sweep, one at each
horizontal extreme, ordered left-to-right or right-to-left. -/
def sweepPts (leftToRight : Bool) (mnx mxx y : ℚ) : List Point :=
  if leftToRight then [⟨mnx, y⟩, ⟨mxx, y⟩] else [⟨mxx, y⟩, ⟨mnx, y⟩]

/-- Modelled from the spec: the while loop of generate — while the current
sweep height y satisfies y ≤ hi (hi being max_y minus half the width), emit
the two waypoints of the sweep in the current direction, advance y by the
width and flip the direction.  The conjunct 0 < w in the guard makes the
recursion well founded; generate only reaches this loop with 0 < w, where the
guard coincides with the loop condition of the specification. -/
def sweepLoop (hi w mnx mxx : ℚ) (y : ℚ) (dir : Bool) : List Point :=
  if h : 0 < w ∧ y ≤ hi then
    sweepPts dir mnx mxx y ++ sweepLoop hi w mnx mxx (y + w) (!dir)
  else []
termination_by Nat.floor ((hi - y) / w + 1)
decreasing_by
  have hw : 0 < w := h.1
  have hw0 : w ≠ 0 := ne_of_gt hw
  have hq : 0 ≤ (hi - y) / w := div_nonneg (by linarith [h.2]) hw.le
  have hstep : (hi - (y + w)) / w + 1 = (hi - y) / w := by
    field_simp
    ring
  rw [hstep, Nat.floor_add_one hq]
  exact Nat.lt_succ_self _

/-- The number of iterations the sweep loop performs from height y: zero when
the guard fails at once, otherwise the floor of (hi - y) / w plus one. -/
def sweepCount (hi w y : ℚ) : ℕ :=
  if 0 < w ∧ y ≤ hi then Nat.floor ((hi - y) / w) + 1 else 0

/-- Modelled from the spec: SweepPathPlanner generate.  A non-positive width
is an input-validation error surfaced before any waypoint sequence is
produced (modelled as the none result); a polygon with fewer than 3 vertices
or with height max_y ≤ min_y yields the empty sequence; otherwise sweeps are
emitted from min_y + width/2 while the sweep height stays at or below
max_y - width/2, alternating direction starting left-to-right; if that loop
emits nothing (height below the width), a single left-to-right sweep at the
vertical midpoint is emitted. -/
def generate (area : Polygon) (width : ℚ) : Option (List Point) :=
  if width ≤ 0 then none
  else if area.vertices.length < 3 then some []
  else
    let mnx := minXOf area.vertices
    let mxx := maxXOf area.vertices
    let mny := minYOf area.vertices
    let mxy := maxYOf area.vertices
    if mxy ≤ mny then some []
    else
      let path := sweepLoop (mxy - width / 2) width mnx mxx (mny + width / 2) true
      if path.isEmpty then some [⟨mnx, (mny + mxy) / 2⟩, ⟨mxx, (mny + mxy) / 2⟩]
      else some path

/-- The two-argument arctangent, modelled by the complex argument function:
for a nonzero (x, y) the argument of the complex number x + y i is the
bearing of (x, y) from the positive x-axis in radians, in the interval
(-pi, pi], exactly the value the C library atan2(y, x) returns there. -/
noncomputable def atan2 (y x : ℝ) : ℝ := Complex.arg ⟨x, y⟩

/-- The orientation, in degrees, that Robot moveTo of robot.cpp assigns for a
displacement (dx, dy): atan2(dy, dx) times 180 / pi. -/
noncomputable def bearingDeg (dy dx : ℚ) : ℝ := atan2 (dy : ℝ) (dx : ℝ) * (180 / Real.pi)

/-- The robot state of robot.h: a current position and a current orientation
in degrees (0 degrees along the positive x-axis). -/
structure Robot where
  currentPosition : Point
  currentOrientationDeg : ℝ

/-- Robot moveTo from robot.cpp: the position becomes the target point; the
orientation is recomputed as the bearing from the previous position to the
target only when the displacement is nonzero, and is otherwise left
unchanged. -/
noncomputable def Robot.moveTo (r : Robot) (t : Point) : Robot :=
  let dx := t.x - r.currentPosition.x
  let dy := t.y - r.currentPosition.y
  { currentPosition := t
    currentOrientationDeg :=
      if dx ≠ 0 ∨ dy ≠ 0 then bearingDeg dy dx else r.currentOrientationDeg }

/-! ## Sweep loop lemmas -/

/-- The sweep loop emits nothing once its guard fails. -/
lemma sweepLoop_stop {hi w y : ℚ} (mnx mxx : ℚ) (dir : Bool) (h : ¬ (0 < w ∧ y ≤ hi)) :
    sweepLoop hi w mnx mxx y dir = [] := by
  rw [sweepLoop, dif_neg h]

/-- One iteration of the sweep loop while its guard holds. -/
lemma sweepLoop_step {hi w y : ℚ} (mnx mxx : ℚ) (dir : Bool) (hw : 0 < w) (hy : y ≤ hi) :
    sweepLoop hi w mnx mxx y dir =
      sweepPts dir mnx mxx y ++ sweepLoop hi w mnx mxx (y + w) (!dir) := by
  rw [sweepLoop, dif_pos ⟨hw, hy⟩]

/-- Advancing the sweep height by one width decreases the iteration count by
one. -/
lemma sweepCount_succ {hi w y : ℚ} {m : ℕ} (hw : 0 < w) (h : sweepCount hi w y = m + 1) :
    y ≤ hi ∧ sweepCount hi w (y + w) = m := by
  by_cases hy : y ≤ hi
  · refine ⟨hy, ?_⟩
    have hm : Nat.floor ((hi - y) / w) = m := by
      simp only [sweepCount, if_pos (And.intro hw hy)] at h
      omega
    by_cases hy2 : y + w ≤ hi
    · have h1 : (1:ℚ) ≤ (hi - y) / w := by
        rw [le_div_iff₀ hw]
        linarith
      have hfl1 : 1 ≤ Nat.floor ((hi - y) / w) := Nat.le_floor (by exact_mod_cast h1)
      have harg : (hi - (y + w)) / w = (hi - y) / w - 1 := by
        field_simp
        ring
      simp only [sweepCount, if_pos (And.intro hw hy2), harg, Nat.floor_sub_one]
      omega
    · have hlt : (hi - y) / w < 1 := by
        rw [div_lt_one hw]
        linarith
      have h0 : Nat.floor ((hi - y) / w) = 0 := Nat.floor_eq_zero.mpr hlt
      have hng : ¬ (0 < w ∧ y + w ≤ hi) := fun hc => hy2 hc.2
      simp only [sweepCount, if_neg hng]
      omega
  · exfalso
    have hng : ¬ (0 < w ∧ y ≤ hi) := fun hc => hy hc.2
    simp [sweepCount, hng] at h

/-- Closed form of the sweep loop: starting at height y in direction dir it
produces, for each k below the iteration count, the sweep at height
y + k * w, in the starting direction for even k and in the opposite
direction for odd k. -/
lemma sweepLoop_closed (mnx mxx : ℚ) {hi w : ℚ} (hw : 0 < w) :
    ∀ (n : ℕ) (y : ℚ) (dir : Bool), sweepCount hi w y = n →
      sweepLoop hi w mnx mxx y dir =
        (List.range n).flatMap
          (fun k => sweepPts (if k % 2 = 0 then dir else !dir) mnx mxx (y + k * w)) := by
  intro n
  induction n with
  | zero =>
    intro y dir h
    have hng : ¬ (0 < w ∧ y ≤ hi) := by
      intro hc
      simp [sweepCount, hc] at h
    rw [sweepLoop_stop _ _ _ hng]
    simp
  | succ m ih =>
    intro y dir h
    obtain ⟨hy, hnext⟩ := sweepCount_succ hw h
    rw [sweepLoop_step _ _ _ hw hy, ih (y + w) (!dir) hnext]
    rw [List.range_succ_eq_map, List.flatMap_cons, List.flatMap_map]
    congr 1
    · norm_num
    · refine List.flatMap_congr ?_
      intro k _
      have hcast : (y + w) + (k : ℚ) * w = y + ((k + 1 : ℕ) : ℚ) * w := by
        push_cast
        ring
      by_cases hk : k % 2 = 0
      · have hk1 : ¬ ((k + 1) % 2 = 0) := by omega
        simp [Function.comp, hk, hk1, hcast]
      · have hk1 : (k + 1) % 2 = 0 := by omega
        simp [Function.comp, hk, hk1, hcast]

/-! ## isInside lemmas -/

/-- If any examined edge pair passes a boundary test for the query point, the
isInside loop returns true no matter what the running flag holds: boundary
matches return before any further parity toggling can matter. -/
lemma isInsideLoop_boundary_mem {x y : ℚ} :
    ∀ (es : List (Point × Point)) (inside : Bool),
      (∃ e ∈ es, onHorizSeg x y e ∨ onVertSeg x y e) →
      isInsideLoop x y es inside = true := by
  intro es
  induction es with
  | nil =>
    rintro inside ⟨e, he, -⟩
    cases he
  | cons e es ih =>
    rintro inside ⟨f, hf, hcond⟩
    rcases List.mem_cons.mp hf with rfl | hmem
    · by_cases hH : onHorizSeg x y f
      · show (if onHorizSeg x y f then true else _) = true
        rw [if_pos hH]
      · have hV : onVertSeg x y f := hcond.resolve_left hH
        show (if onHorizSeg x y f then true else if onVertSeg x y f then true else _) = true
        rw [if_neg hH, if_pos hV]
    · show (if onHorizSeg x y e then true
        else if onVertSeg x y e then true
        else if crossesRay y e then
          if x < xIntersection y e then isInsideLoop x y es (!inside)
          else isInsideLoop x y es inside
        else isInsideLoop x y es inside) = true
      by_cases hH : onHorizSeg x y e
      · rw [if_pos hH]
      · rw [if_neg hH]
        by_cases hV : onVertSeg x y e
        · rw [if_pos hV]
        · rw [if_neg hV]
          by_cases hC : crossesRay y e
          · rw [if_pos hC]
            by_cases hX : x < xIntersection y e
            · rw [if_pos hX]
              exact ih _ ⟨f, hmem, hcond⟩
            · rw [if_neg hX]
              exact ih _ ⟨f, hmem, hcond⟩
          · rw [if_neg hC]
            exact ih _ ⟨f, hmem, hcond⟩

/-! ## The claims -/

/-- C1: for a 4-vertex polygon whose bounding box is [x0, x1] times [y0, y1]
with height y1 - y0 at least the tool width w and w positive, generate
returns exactly two waypoints per sweep, with sweep k (0-indexed) at height
y0 + w/2 + k*w for exactly those k below the sweep count (equivalently, those
k whose height is at most y1 - w/2, as the second conjunct states), even
sweeps running from (x0, y) to (x1, y) and odd sweeps from (x1, y) to
(x0, y). -/
theorem generate_rectangle_boustrophedon (area : Polygon) (x0 x1 y0 y1 w : ℚ)
    (hw : 0 < w) (hhw : w ≤ y1 - y0)
    (hn : area.vertices.length = 4)
    (hx0 : minXOf area.vertices = x0) (hx1 : maxXOf area.vertices = x1)
    (hy0 : minYOf area.vertices = y0) (hy1 : maxYOf area.vertices = y1) :
    generate area w =
      some ((List.range (Nat.floor ((y1 - y0 - w) / w) + 1)).flatMap
        (fun k => if k % 2 = 0
          then [⟨x0, y0 + w / 2 + k * w⟩, ⟨x1, y0 + w / 2 + k * w⟩]
          else [⟨x1, y0 + w / 2 + k * w⟩, ⟨x0, y0 + w / 2 + k * w⟩]))
    ∧ ∀ k : ℕ, (y0 + w / 2 + k * w ≤ y1 - w / 2 ↔
        k < Nat.floor ((y1 - y0 - w) / w) + 1) := by
  have hcount : sweepCount (y1 - w / 2) w (y0 + w / 2) = Nat.floor ((y1 - y0 - w) / w) + 1 := by
    have hy : y0 + w / 2 ≤ y1 - w / 2 := by linarith
    have harg : y1 - w / 2 - (y0 + w / 2) = y1 - y0 - w := by ring
    simp only [sweepCount, if_pos (And.intro hw hy), harg]
  have hloop := sweepLoop_closed x0 x1 hw _ _ true hcount
  have hpath : sweepLoop (y1 - w / 2) w x0 x1 (y0 + w / 2) true =
      (List.range (Nat.floor ((y1 - y0 - w) / w) + 1)).flatMap
        (fun k => if k % 2 = 0
          then [⟨x0, y0 + w / 2 + k * w⟩, ⟨x1, y0 + w / 2 + k * w⟩]
          else [⟨x1, y0 + w / 2 + k * w⟩, ⟨x0, y0 + w / 2 + k * w⟩]) := by
    rw [hloop]
    refine List.flatMap_congr ?_
    intro k _
    by_cases hk : k % 2 = 0 <;> simp [sweepPts, hk]
  have hne : (sweepLoop (y1 - w / 2) w x0 x1 (y0 + w / 2) true).isEmpty = false := by
    rw [hpath, List.range_succ_eq_map, List.flatMap_cons]
    simp
  constructor
  · simp only [generate, hx0, hx1, hy0, hy1, hn]
    rw [if_neg (not_le.mpr hw), if_neg (by norm_num), if_neg (by intro hc; linarith), hne]
    simp only [Bool.false_eq_true, if_false]
    rw [hpath]
  · intro k
    have hq : (0:ℚ) ≤ (y1 - y0 - w) / w := div_nonneg (by linarith) hw.le
    rw [Nat.lt_succ_iff, Nat.le_floor_iff hq, le_div_iff₀ hw]
    constructor <;> intro h <;> linarith

/-- Witness for C1: the rectangle (0,0)-(5,10) with width 2 yields the ten
waypoints of five alternating sweeps at heights 1, 3, 5, 7, 9, and the
rectangle (0,0)-(5,9) with width 2 yields the eight waypoints of four sweeps
at heights 1, 3, 5, 7. -/
theorem generate_rectangle_boustrophedon_witness :
    (0:ℚ) < 2 ∧ (2:ℚ) ≤ 10 - 0 ∧ (2:ℚ) ≤ 9 - 0 ∧
    generate ⟨[⟨0,0⟩, ⟨0,10⟩, ⟨5,10⟩, ⟨5,0⟩]⟩ 2 =
      some [⟨0,1⟩, ⟨5,1⟩, ⟨5,3⟩, ⟨0,3⟩, ⟨0,5⟩, ⟨5,5⟩, ⟨5,7⟩, ⟨0,7⟩, ⟨0,9⟩, ⟨5,9⟩] ∧
    generate ⟨[⟨0,0⟩, ⟨0,9⟩, ⟨5,9⟩, ⟨5,0⟩]⟩ 2 =
      some [⟨0,1⟩, ⟨5,1⟩, ⟨5,3⟩, ⟨0,3⟩, ⟨0,5⟩, ⟨5,5⟩, ⟨5,7⟩, ⟨0,7⟩] := by
  refine ⟨by norm_num, by norm_num, by norm_num, ?_, ?_⟩
  · have h := (generate_rectangle_boustrophedon ⟨[⟨0,0⟩, ⟨0,10⟩, ⟨5,10⟩, ⟨5,0⟩]⟩ 0 5 0 10 2
      (by norm_num) (by norm_num) (by with_unfolding_all rfl)
      (by with_unfolding_all rfl) (by with_unfolding_all rfl)
      (by with_unfolding_all rfl) (by with_unfolding_all rfl)).1
    rw [h]
    have hN : Nat.floor (((10:ℚ) - 0 - 2) / 2) + 1 = 5 := by
      have h4 : ((10:ℚ) - 0 - 2) / 2 = 4 := by norm_num
      rw [h4]
      norm_num
    rw [hN]
    with_unfolding_all rfl
  · have h := (generate_rectangle_boustrophedon ⟨[⟨0,0⟩, ⟨0,9⟩, ⟨5,9⟩, ⟨5,0⟩]⟩ 0 5 0 9 2
      (by norm_num) (by norm_num) (by with_unfolding_all rfl)
      (by with_unfolding_all rfl) (by with_unfolding_all rfl)
      (by with_unfolding_all rfl) (by with_unfolding_all rfl)).1
    rw [h]
    have hN : Nat.floor (((9:ℚ) - 0 - 2) / 2) + 1 = 4 := by
      have h72 : ((9:ℚ) - 0 - 2) / 2 = 7 / 2 := by norm_num
      rw [h72]
      have h37 : Nat.floor ((7:ℚ) / 2) = 3 := by
        rw [Nat.floor_eq_iff (by norm_num)]
        norm_num
      rw [h37]
    rw [hN]
    with_unfolding_all rfl

/-- C2: for a 4-vertex polygon whose bounding box is [x0, x1] times [y0, y1]
with strictly positive height strictly below the tool width w, generate
returns exactly the two waypoints of a single left-to-right sweep at the
vertical midpoint: (x0, (y0+y1)/2) followed by (x1, (y0+y1)/2). -/
theorem generate_undersized_single_midline_sweep (area : Polygon) (x0 x1 y0 y1 w : ℚ)
    (hh : 0 < y1 - y0) (hlt : y1 - y0 < w)
    (hn : area.vertices.length = 4)
    (hx0 : minXOf area.vertices = x0) (hx1 : maxXOf area.vertices = x1)
    (hy0 : minYOf area.vertices = y0) (hy1 : maxYOf area.vertices = y1) :
    generate area w = some [⟨x0, (y0 + y1) / 2⟩, ⟨x1, (y0 + y1) / 2⟩] := by
  have hw : 0 < w := by linarith
  have hstop : sweepLoop (y1 - w / 2) w x0 x1 (y0 + w / 2) true = [] := by
    refine sweepLoop_stop _ _ _ ?_
    rintro ⟨-, hy⟩
    linarith
  simp only [generate, hx0, hx1, hy0, hy1, hn]
  rw [if_neg (not_le.mpr hw), if_neg (by norm_num), if_neg (by intro hc; linarith), hstop]
  simp

/-- Witness for C2: the rectangle (0,0)-(5,1) with width 2 (height 1 below
the width) yields exactly the two waypoints (0, 1/2) and (5, 1/2). -/
theorem generate_undersized_single_midline_sweep_witness :
    (0:ℚ) < 1 - 0 ∧ (1:ℚ) - 0 < 2 ∧
    generate ⟨[⟨0,0⟩, ⟨0,1⟩, ⟨5,1⟩, ⟨5,0⟩]⟩ 2 = some [⟨0, 1/2⟩, ⟨5, 1/2⟩] := by
  refine ⟨by norm_num, by norm_num, ?_⟩
  have h := generate_undersized_single_midline_sweep ⟨[⟨0,0⟩, ⟨0,1⟩, ⟨5,1⟩, ⟨5,0⟩]⟩ 0 5 0 1 2
    (by norm_num) (by norm_num) (by with_unfolding_all rfl)
    (by with_unfolding_all rfl) (by with_unfolding_all rfl)
    (by with_unfolding_all rfl) (by with_unfolding_all rfl)
  rw [h]
  with_unfolding_all rfl

/-- C3: with a valid (positive) tool width, a polygon with fewer than 3
vertices, or one whose y-extent satisfies max_y ≤ min_y, makes generate
return the empty waypoint sequence — a some result, not an error. -/
theorem generate_degenerate_region_empty (area : Polygon) (w : ℚ) (hw : 0 < w)
    (h : area.vertices.length < 3 ∨ maxYOf area.vertices ≤ minYOf area.vertices) :
    generate area w = some [] := by
  simp only [generate, if_neg (not_le.mpr hw)]
  rcases h with h | h
  · rw [if_pos h]
  · by_cases h3 : area.vertices.length < 3
    · rw [if_pos h3]
    · rw [if_neg h3, if_pos h]

/-- Witness for C3: a 2-vertex polygon, and a 3-vertex polygon of zero
height, both yield the empty waypoint sequence at width 1. -/
theorem generate_degenerate_region_empty_witness :
    (0:ℚ) < 1 ∧ ([(⟨0,0⟩ : Point), ⟨4,4⟩].length < 3) ∧
    generate ⟨[⟨0,0⟩, ⟨4,4⟩]⟩ 1 = some [] ∧
    generate ⟨[⟨0,0⟩, ⟨1,0⟩, ⟨2,0⟩]⟩ 1 = some [] := by
  refine ⟨by norm_num, by decide, ?_, ?_⟩
  · exact generate_degenerate_region_empty ⟨[⟨0,0⟩, ⟨4,4⟩]⟩ 1 (by norm_num) (Or.inl (by decide))
  · exact generate_degenerate_region_empty ⟨[⟨0,0⟩, ⟨1,0⟩, ⟨2,0⟩]⟩ 1 (by norm_num)
      (Or.inr (le_of_eq (by with_unfolding_all rfl)))

/-- C4: a non-positive tool width makes the planner fail before producing any
waypoint sequence: generate returns none for every polygon, never a some
result obtained by clamping the width. -/
theorem generate_nonpositive_width_fails (area : Polygon) (w : ℚ) (hw : w ≤ 0) :
    generate area w = none := by
  simp only [generate, if_pos hw]

/-- Witness for C4: width 0 on the 5 by 10 rectangle produces no waypoint
sequence. -/
theorem generate_nonpositive_width_fails_witness :
    (0:ℚ) ≤ 0 ∧ generate ⟨[⟨0,0⟩, ⟨0,10⟩, ⟨5,10⟩, ⟨5,0⟩]⟩ 0 = none :=
  ⟨le_rfl, generate_nonpositive_width_fails ⟨[⟨0,0⟩, ⟨0,10⟩, ⟨5,10⟩, ⟨5,0⟩]⟩ 0 le_rfl⟩

/-- C5: a point lying exactly on a horizontal or vertical edge segment of a
polygon with at least 3 vertices is classified inside: the boundary test on
that edge makes isInside return true, whatever the parity logic would have
concluded. -/
theorem isInside_boundary_segment_true (p : Point) (poly : Polygon) (e : Point × Point)
    (hn : 3 ≤ poly.vertices.length)
    (he : e ∈ polyEdges poly.vertices)
    (hcond : onHorizSeg p.x p.y e ∨ onVertSeg p.x p.y e) :
    isInside p poly = true := by
  obtain ⟨v, vs, hv⟩ : ∃ v vs, poly.vertices = v :: vs := by
    cases hvs : poly.vertices with
    | nil =>
      rw [hvs] at hn
      simp at hn
    | cons a l => exact ⟨a, l, rfl⟩
  unfold isInside
  rw [if_neg (by omega)]
  apply isInsideLoop_boundary_mem
  refine ⟨e, ?_, hcond⟩
  rw [hv]
  unfold loopEdges
  exact List.mem_cons_of_mem _ (hv ▸ he)

/-- Witness for C5: the point (0, 2) lies on the vertical edge from (0,0) to
(0,4) of the unit-test square and is classified inside. -/
theorem isInside_boundary_segment_true_witness :
    ((⟨0,0⟩, ⟨0,4⟩) : Point × Point) ∈ polyEdges [⟨0,0⟩, ⟨0,4⟩, ⟨4,4⟩, ⟨4,0⟩] ∧
    onVertSeg (0:ℚ) 2 (⟨0,0⟩, ⟨0,4⟩) ∧
    isInside ⟨0,2⟩ ⟨[⟨0,0⟩, ⟨0,4⟩, ⟨4,4⟩, ⟨4,0⟩]⟩ = true := by
  refine ⟨by decide, by decide, ?_⟩
  exact isInside_boundary_segment_true ⟨0,2⟩ ⟨[⟨0,0⟩, ⟨0,4⟩, ⟨4,4⟩, ⟨4,0⟩]⟩ (⟨0,0⟩, ⟨0,4⟩)
    (by decide) (by decide) (Or.inr (by decide))

/-- C6: a polygon with fewer than 3 vertices makes isInside return false for
every query point. -/
theorem isInside_degenerate_polygon_false (p : Point) (poly : Polygon)
    (h : poly.vertices.length < 3) :
    isInside p poly = false := by
  unfold isInside
  rw [if_pos h]

/-- Witness for C6: the point (1, 1) against a 2-vertex polygon. -/
theorem isInside_degenerate_polygon_false_witness :
    ([(⟨0,0⟩ : Point), ⟨2,2⟩].length < 3) ∧
    isInside ⟨1,1⟩ ⟨[⟨0,0⟩, ⟨2,2⟩]⟩ = false :=
  ⟨by decide, isInside_degenerate_polygon_false ⟨1,1⟩ ⟨[⟨0,0⟩, ⟨2,2⟩]⟩ (by decide)⟩

/-- C7: an edge that satisfies the ray-crossing test of isInside has
endpoints of distinct y-coordinates, so the denominator p2.y - p1.y in the
intersection formula is nonzero; a horizontal edge (equal y endpoints) can
never satisfy the crossing test. -/
theorem crossesRay_denominator_nonzero (y : ℚ) (e : Point × Point) (h : crossesRay y e) :
    e.1.y ≠ e.2.y ∧ e.2.y - e.1.y ≠ 0 := by
  rcases h with ⟨h1, h2⟩ | ⟨h1, h2⟩ <;>
    refine ⟨fun hEq => ?_, fun hEq => ?_⟩ <;> linarith

/-- Witness for C7: the vertical edge from (0,0) to (0,2) crosses the ray at
height 1 and its y-denominator is nonzero. -/
theorem crossesRay_denominator_nonzero_witness :
    crossesRay (1:ℚ) (⟨0,0⟩, ⟨0,2⟩) ∧ (0:ℚ) ≠ 2 ∧ (2:ℚ) - 0 ≠ 0 := by
  refine ⟨by decide, ?_⟩
  exact crossesRay_denominator_nonzero 1 (⟨0,0⟩, ⟨0,2⟩) (by decide)

/-- C8: distance is symmetric, zero on equal arguments, nonnegative, and
zero exactly when the two points are coordinate-equal. -/
theorem distance_metric_properties (p q : Point) :
    distance p q = distance q p ∧
    distance p p = 0 ∧
    0 ≤ distance p q ∧
    (distance p q = 0 ↔ p = q) := by
  have hsym : distance p q = distance q p := by
    unfold distance
    congr 1
    push_cast
    ring
  have hself : distance p p = 0 := by
    unfold distance
    simp
  refine ⟨hsym, hself, Real.sqrt_nonneg _, ?_⟩
  constructor
  · intro h
    unfold distance at h
    have hnn : (0:ℝ) ≤ ((q.x - p.x : ℚ) : ℝ) ^ 2 + ((q.y - p.y : ℚ) : ℝ) ^ 2 := by positivity
    have h0 : ((q.x - p.x : ℚ) : ℝ) ^ 2 + ((q.y - p.y : ℚ) : ℝ) ^ 2 = 0 :=
      (Real.sqrt_eq_zero hnn).mp h
    have hx : ((q.x - p.x : ℚ) : ℝ) = 0 := by
      nlinarith [sq_nonneg ((q.x - p.x : ℚ) : ℝ), sq_nonneg ((q.y - p.y : ℚ) : ℝ)]
    have hy : ((q.y - p.y : ℚ) : ℝ) = 0 := by
      nlinarith [sq_nonneg ((q.x - p.x : ℚ) : ℝ), sq_nonneg ((q.y - p.y : ℚ) : ℝ)]
    have hx2 : q.x = p.x := by
      have hq0 : (q.x - p.x : ℚ) = 0 := by exact_mod_cast hx
      linarith
    have hy2 : q.y = p.y := by
      have hq0 : (q.y - p.y : ℚ) = 0 := by exact_mod_cast hy
      linarith
    ext
    · exact hx2.symm
    · exact hy2.symm
  · rintro rfl
    exact hself

/-- C9: moveTo sets the position to the target point; the orientation becomes
the atan2-based bearing in degrees from the previous position to the target
when they differ, and is left unchanged when the target equals the current
position. -/
theorem moveTo_position_orientation (r : Robot) (t : Point) :
    (r.moveTo t).currentPosition = t ∧
    (r.moveTo t).currentOrientationDeg =
      (if t = r.currentPosition then r.currentOrientationDeg
       else bearingDeg (t.y - r.currentPosition.y) (t.x - r.currentPosition.x)) := by
  refine ⟨rfl, ?_⟩
  show (if (t.x - r.currentPosition.x) ≠ 0 ∨ (t.y - r.currentPosition.y) ≠ 0
      then bearingDeg (t.y - r.currentPosition.y) (t.x - r.currentPosition.x)
      else r.currentOrientationDeg) = _
  by_cases h : t = r.currentPosition
  · have hx : t.x - r.currentPosition.x = 0 := by
      rw [h]
      ring
    have hy : t.y - r.currentPosition.y = 0 := by
      rw [h]
      ring
    rw [if_neg (not_or.mpr ⟨not_not_intro hx, not_not_intro hy⟩), if_pos h]
  · have hd : (t.x - r.currentPosition.x) ≠ 0 ∨ (t.y - r.currentPosition.y) ≠ 0 := by
      by_contra hc
      push_neg at hc
      apply h
      ext
      · linarith [hc.1]
      · linarith [hc.2]
    rw [if_pos hd, if_neg h]

/-- C10: for any polygon with at least 3 vertices, a query point equal to the
first vertex is classified inside, whatever the shape: the first loop
iteration examines the degenerate pair (v0, v0), whose horizontal boundary
test any point equal to v0 passes. -/
theorem isInside_first_vertex_true (v0 : Point) (rest : List Point)
    (hn : 3 ≤ (v0 :: rest).length) :
    isInside v0 ⟨v0 :: rest⟩ = true := by
  unfold isInside
  rw [if_neg (by simp only [Polygon.mk.injEq]; omega)]
  show isInsideLoop v0.x v0.y (loopEdges (v0 :: rest)) false = true
  unfold loopEdges isInsideLoop
  rw [if_pos ⟨rfl, rfl, by simp, by simp⟩]

/-- Witness for C10: the first vertex (0,0) of a triangle with no
axis-aligned edge at all is classified inside. -/
theorem isInside_first_vertex_true_witness :
    3 ≤ ([(⟨0,0⟩ : Point), ⟨1,2⟩, ⟨2,1⟩]).length ∧
    isInside ⟨0,0⟩ ⟨[⟨0,0⟩, ⟨1,2⟩, ⟨2,1⟩]⟩ = true :=
  ⟨by decide, isInside_first_vertex_true ⟨0,0⟩ [⟨1,2⟩, ⟨2,1⟩] (by decide)⟩

end RobotAlgo
